import Mathlib

/-!
Verification of the ai_developer agent core against its specification.

The definitions below are shallow embeddings of the Python sources:
  * `src/ai_dev/permission/permission_manager.py` (permission engine)
  * `src/ai_dev/utils/message.py` (token counting / auto compaction)
  * `src/ai_dev/utils/freshness.py` (file freshness tracker)
  * `src/ai_dev/tools/todo/todo_write.py` and `src/ai_dev/utils/todo.py`
  * `src/ai_dev/tools/task/task_tool.py` (sub-agent tool construction)
  * `src/ai_dev/core/re_act_agent.py` (graph wiring, routing, interrupt
    handling)

Machine floats (`time.time()` results, the 0.92 threshold) are modelled by
exact rationals; Python dictionaries by association lists or functions.
-/

namespace AiDev

/-! ### Permission engine (`permission_manager.py`) -/

/-- Decision returned by the permission engine (`PermissionDecision`). -/
inductive PermissionDecision
  | allow
  | deny
  | ask
deriving DecidableEq, Repr

/-- User choice for an ASK interrupt (`UserPermissionChoice`). -/
inductive UserPermissionChoice
  | allowOnce
  | allowSession
  | denyOp
deriving DecidableEq, Repr

/-- Tool arguments: a string-keyed mapping, as the Python `Dict[str, Any]`
restricted to the string-valued entries the permission engine inspects. -/
abbrev ToolArgs := List (String × String)

/-- Python `d.get(k, "")` on an argument mapping. -/
def argGet (args : ToolArgs) (key : String) : String :=
  match args.find? (fun kv => kv.1 = key) with
  | some kv => kv.2
  | none => ""

/-- Maximal non-whitespace runs of a character list (`acc` holds the
current run, reversed). -/
def wsTokens (acc : List Char) : List Char → List String
  | [] => if acc = [] then [] else [acc.reverse.asString]
  | c :: rest =>
    if c.isWhitespace then
      if acc = [] then wsTokens [] rest
      else acc.reverse.asString :: wsTokens [] rest
    else wsTokens (c :: acc) rest

/-- Python `s.split()` — split on whitespace runs, dropping empty pieces. -/
def pySplitWs (s : String) : List String :=
  wsTokens [] s.data

/-- Python `s.strip()`. -/
def pyStrip (s : String) : String :=
  (((s.data.dropWhile Char.isWhitespace).reverse.dropWhile Char.isWhitespace).reverse).asString

/-- Python `c in s` for a single character. -/
def strContainsChar (s : String) (c : Char) : Bool :=
  s.data.any (fun x => x = c)

/-- Python `s.endswith(suffix)`. -/
def strEndsWith (s suffix : String) : Bool :=
  suffix.data.reverse.isPrefixOf s.data.reverse

/-- Split a character list at every occurrence of `c`
(Python `s.split(c)`). -/
def splitOnChar (c : Char) (acc : List Char) : List Char → List (List Char)
  | [] => [acc.reverse]
  | x :: rest =>
    if x = c then acc.reverse :: splitOnChar c [] rest
    else splitOnChar c (x :: acc) rest

/-- Split a character list at the first occurrence of `c`
(Python `s.split(c, 1)` when it succeeds). -/
def splitFirstChar (c : Char) : List Char → Option (List Char × List Char)
  | [] => none
  | x :: xs =>
    if x = c then some ([], xs)
    else
      match splitFirstChar c xs with
      | some (l, r) => some (x :: l, r)
      | none => none

/-- Models `pathlib.Path(p).relative_to(wd)` for normalized string paths:
succeeds exactly when `p` lies under `wd`. -/
def relativeTo (filePath workingDirectory : String) : Option String :=
  if filePath = workingDirectory then some "."
  else if (workingDirectory ++ "/").data.isPrefixOf filePath.data then
    some (filePath.data.drop (workingDirectory.data.length + 1)).asString
  else none

/-- A permission request (`PermissionRequest`). -/
structure PermissionRequest where
  tool_name : String
  tool_args : ToolArgs
  working_directory : String
deriving Repr

/-- The deterministic fingerprint `PermissionRequest._generate_permission_key`. -/
def generatePermissionKey (toolName : String) (toolArgs : ToolArgs)
    (workingDirectory : String) : String :=
  if toolName = "BashExecuteTool" then
    let command := argGet toolArgs "command"
    match pySplitWs (pyStrip command) with
    | commandType :: _ => toolName ++ "(" ++ commandType ++ ":*)"
    | [] => toolName
  else if toolName = "FileWriteTool" ∨ toolName = "FileEditTool" then
    let filePath := argGet toolArgs "file_path"
    if filePath = "" then toolName
    else
      match relativeTo filePath workingDirectory with
      | some relPath => toolName ++ "(" ++ relPath ++ ")"
      | none => toolName ++ "(" ++ filePath ++ ")"
  else toolName

/-- Construct a request, as the `PermissionRequest` constructor does. -/
def mkRequest (toolName : String) (toolArgs : ToolArgs)
    (workingDirectory : String) : PermissionRequest :=
  ⟨toolName, toolArgs, workingDirectory⟩

/-- The `permission_key` field computed at construction time. -/
def PermissionRequest.permissionKey (r : PermissionRequest) : String :=
  generatePermissionKey r.tool_name r.tool_args r.working_directory

/-- Greedy scan: drop through the first occurrence of `needle` in `hay`,
returning the remaining suffix. -/
def dropThroughFirst (needle : List Char) : List Char → Option (List Char)
  | [] => if needle = [] then some [] else none
  | c :: t =>
    if needle.isPrefixOf (c :: t) then some ((c :: t).drop needle.length)
    else dropThroughFirst needle t

/-- Segments of a wildcard pattern must occur in `hay`, in order. -/
def segsSearch : List (List Char) → List Char → Bool
  | [], _ => true
  | s :: rest, hay =>
    match dropThroughFirst s hay with
    | some remaining => segsSearch rest remaining
    | none => false

/-- Models `re.search(pattern.replace("*", ".*"), hay)` for patterns whose
only regex metacharacter is the `*` wildcard. -/
def wildcardSearch (pattern hay : String) : Bool :=
  segsSearch (splitOnChar '*' [] pattern.data) hay.data

/-- Python `needle in hay` substring test. -/
def isSubstringOf (needle hay : String) : Bool :=
  (List.range (hay.data.length + 1)).any
    (fun i => needle.data.isPrefixOf (hay.data.drop i))

/-- `PermissionManager._matches_command_pattern`. -/
def matchesCommandPattern (r : PermissionRequest)
    (commandType commandPattern : String) : Bool :=
  if r.tool_name ≠ "BashExecuteTool" then false
  else
    let command := pyStrip (argGet r.tool_args "command")
    if command = "" then commandPattern = "*"
    else
      match pySplitWs command with
      | [] => false
      | actualCommandType :: _ =>
        if commandType ≠ "*" ∧ actualCommandType ≠ commandType then false
        else if commandPattern = "*" then true
        else if strContainsChar commandPattern '*' then wildcardSearch commandPattern command
        else isSubstringOf commandPattern command

/-- `PermissionManager._matches_path_pattern`. -/
def matchesPathPattern (r : PermissionRequest) (pathPattern : String) : Bool :=
  if r.tool_name ∉ ["FileWriteTool", "FileEditTool", "FileReadTool"] then false
  else
    let filePath := argGet r.tool_args "file_path"
    if filePath = "" then false
    else if pathPattern = "*" then true
    else if strContainsChar pathPattern '*' then wildcardSearch pathPattern filePath
    else filePath = pathPattern

/-- `PermissionManager._matches_pattern`: parse `ToolName` or
`ToolName(pattern)` and dispatch. -/
def matchesPattern (r : PermissionRequest) (pattern : String) : Bool :=
  let parsed : String × Option String :=
    if strContainsChar pattern '(' ∧ strEndsWith pattern ")" then
      match splitFirstChar '(' pattern.data with
      | some (l, rest) => (l.asString, some (rest.dropLast.asString))
      | none => (pattern, none)
    else (pattern, none)
  if parsed.1 ≠ r.tool_name then false
  else
    match parsed.2 with
    | none => true
    | some patternPart =>
      if strContainsChar patternPart ':' then
        match splitFirstChar ':' patternPart.data with
        | some (ct, cp) => matchesCommandPattern r ct.asString cp.asString
        | none => false
      else matchesPathPattern r patternPart

/-- `PermissionManager._matches_any_pattern`. -/
def matchesAnyPattern (r : PermissionRequest) (patterns : List String) : Bool :=
  patterns.any (matchesPattern r)

/-- The `permissions` configuration: `allow`, `deny`, `ask` rule lists. -/
structure PermissionConfig where
  allowRules : List String
  denyRules : List String
  askRules : List String
deriving Repr

/-- The session cache: the key set of the Python `session_cache` dict. -/
abbrev SessionCache := List String

/-- `PermissionManager.check_permission`: session cache, then deny rules,
then allow rules, then ASK. -/
def checkPermission (cache : SessionCache) (config : PermissionConfig)
    (toolName : String) (toolArgs : ToolArgs) (workingDirectory : String) :
    PermissionDecision × PermissionRequest :=
  let request := mkRequest toolName toolArgs workingDirectory
  if request.permissionKey ∈ cache then (.allow, request)
  else if matchesAnyPattern request config.denyRules then (.deny, request)
  else if matchesAnyPattern request config.allowRules then (.allow, request)
  else (.ask, request)

/-- `PermissionManager.apply_user_choice`: returns whether execution is
allowed and the session cache afterwards (dict-key insertion modelled on the
key set). -/
def applyUserChoice (cache : SessionCache) (request : PermissionRequest) :
    UserPermissionChoice → Bool × SessionCache
  | .allowOnce => (true, cache)
  | .allowSession =>
    (true, if request.permissionKey ∈ cache then cache else request.permissionKey :: cache)
  | .denyOp => (false, cache)

/-- `PermissionManager.clear_session_cache`. -/
def clearSessionCache : SessionCache := []

/-! ### Token counting and auto compaction (`utils/message.py`) -/

/-- A conversation message as `count_tokens` sees it: an `AIMessage` whose
`usage_metadata` either is absent/falsy (`none`) or carries a
`total_tokens` count, or any other message kind. -/
inductive ChatMessage
  | ai (usage : Option ℕ)
  | otherMessage
deriving DecidableEq, Repr

/-- Backward scan of `count_tokens`, on the reversed message list. -/
def countTokensRev : List ChatMessage → ℕ
  | [] => 0
  | .ai (some n) :: _ => n
  | .ai none :: rest => countTokensRev rest
  | .otherMessage :: rest => countTokensRev rest

/-- `count_tokens`: the `total_tokens` of the latest `AIMessage` carrying
usage metadata, else 0. -/
def count_tokens (messages : List ChatMessage) : ℕ :=
  countTokensRev messages.reverse

/-- The constant `AUTO_COMPACT_THRESHOLD` ratio 0.92, as an exact rational. -/
def AUTO_COMPACT_THRESHOLD : ℚ := 92 / 100

/-- `should_compact`: compaction triggers when the counted tokens reach
`max_context_tokens * 0.92`. -/
def should_compact (messages : List ChatMessage) (maxContextTokens : ℕ) : Bool :=
  decide ((count_tokens messages : ℚ) ≥ (maxContextTokens : ℚ) * AUTO_COMPACT_THRESHOLD)

/-! ### File freshness tracker (`utils/freshness.py`)

Timestamps (`time.time()` and `os.path.getmtime`) are modelled as exact
rationals; a missing/inaccessible file is an `Option.none` mtime
(`OSError` / `FileNotFoundError`). The module-global `_freshness_records`
dict is modelled as a function from paths to optional records. -/

/-- `FileFreshnessRecord`. -/
structure FileFreshnessRecord where
  file_path : String
  last_read_time : Option ℚ := none
  last_agent_edit_time : Option ℚ := none
  last_external_edit_time : Option ℚ := none
  read_count : ℕ := 0
deriving DecidableEq, Repr

/-- The tracker state: the `_freshness_records` module dict. -/
abbrev FreshnessState := String → Option FileFreshnessRecord

/-- `_get_or_create_record`. -/
def getOrCreateRecord (s : FreshnessState) (p : String) : FileFreshnessRecord :=
  match s p with
  | some r => r
  | none => { file_path := p }

/-- `update_read_time(p)` at clock time `now` with current file mtime
`mtime` (`none` when `getmtime` raises). -/
def updateReadTime (s : FreshnessState) (p : String) (now : ℚ)
    (mtime : Option ℚ) : FreshnessState :=
  let record := getOrCreateRecord s p
  let record := { record with
    last_read_time := some now
    read_count := record.read_count + 1
    last_agent_edit_time := none }
  let record :=
    match mtime with
    | some m => { record with last_external_edit_time := some m }
    | none => record
  fun q => if q = p then some record else s q

/-- `update_agent_edit_time(p)` at clock time `now` with current file
mtime `mtime`. -/
def updateAgentEditTime (s : FreshnessState) (p : String) (now : ℚ)
    (mtime : Option ℚ) : FreshnessState :=
  let record := getOrCreateRecord s p
  let record := { record with last_agent_edit_time := some now }
  let record :=
    match mtime with
    | some m => { record with last_external_edit_time := some m }
    | none => record
  fun q => if q = p then some record else s q

/-- `check_freshness(p)` with current file mtime `mtime`; returns
(needs_read, reason) plus the tracker state afterwards. -/
def checkFreshness (s : FreshnessState) (p : String) (mtime : Option ℚ) :
    Bool × String × FreshnessState :=
  match s p with
  | none => (true, "修改之前必须先使用FileReadTool读取文件", s)
  | some record =>
    match record.last_agent_edit_time with
    | some agentEditTime =>
      match mtime with
      | some currentMtime =>
        let record' := { record with last_external_edit_time := some currentMtime }
        let s' : FreshnessState := fun q => if q = p then some record' else s q
        if agentEditTime < currentMtime then
          (true, "文件已被用户修改，请重新读取后再修改", s')
        else (false, "agent有最新鲜的数据", s')
      | none => (true, "文件不存在或无法访问", s)
    | none =>
      match record.last_read_time with
      | some readTime =>
        match mtime with
        | some currentMtime =>
          let record' := { record with last_external_edit_time := some currentMtime }
          let s' : FreshnessState := fun q => if q = p then some record' else s q
          if readTime < currentMtime then
            (true, "文件已被用户修改，请重新读取后再修改", s')
          else (false, "文件内容未变更", s')
        | none => (true, "文件不存在或无法访问", s)
      | none => (true, "修改之前必须先使用FileReadTool读取文件", s)

/-! ### Todo list (`tools/todo/todo_write.py`, `utils/todo.py`) -/

/-- `TodoItem`. -/
structure TodoItem where
  id : String
  content : String
  status : String
  priority : String
deriving DecidableEq, Repr

/-- `TodoItemStorage` (timestamps as rationals). -/
structure TodoItemStorage where
  id : String
  content : String
  status : String
  priority : String
  create_at : ℚ
  update_at : ℚ
  previous_status : String
deriving DecidableEq, Repr

/-- Per-item checks of `TodoWriteTool._verify_input` (content nonempty,
status and priority legal), first offending item wins. -/
def verifyItems : List TodoItem → Except String Unit
  | [] => .ok ()
  | todo :: rest =>
    if todo.content = "" then
      .error ("Todo with ID " ++ todo.id ++ " has empty content")
    else if todo.status ∉ ["pending", "in_progress", "completed"] then
      .error ("Invalid status " ++ todo.status ++ " for todo " ++ todo.id)
    else if todo.priority ∉ ["low", "medium", "high"] then
      .error ("Invalid priority " ++ todo.priority ++ " for todo " ++ todo.id)
    else verifyItems rest

/-- `TodoWriteTool._verify_input`: unique ids, at most one `in_progress`,
then the per-item checks. -/
def verify_input (todos : List TodoItem) : Except String Unit :=
  if (todos.map TodoItem.id).dedup.length ≠ todos.length then
    .error "Duplicate todo IDs found"
  else if 1 < (todos.filter (fun t => t.status = "in_progress")).length then
    .error "Only one task can be in_progress at a time"
  else verifyItems todos

/-- Status sort rank in `set_todos.sort_key`. -/
def statusOrder (s : String) : ℕ :=
  if s = "in_progress" then 0 else if s = "pending" then 1
  else if s = "completed" then 2 else 3

/-- Priority sort rank in `set_todos.sort_key`. -/
def priorityOrder (p : String) : ℕ :=
  if p = "high" then 0 else if p = "medium" then 1
  else if p = "low" then 2 else 3

/-- The lexicographic comparison Python's `list.sort(key=sort_key)`
applies: (status rank, priority rank, update time). -/
def sortKeyLe (a b : TodoItemStorage) : Prop :=
  statusOrder a.status < statusOrder b.status ∨
    (statusOrder a.status = statusOrder b.status ∧
      (priorityOrder a.priority < priorityOrder b.priority ∨
        (priorityOrder a.priority = priorityOrder b.priority ∧
          a.update_at ≤ b.update_at)))

instance : DecidableRel sortKeyLe := fun a b => by
  unfold sortKeyLe; infer_instance

/-- Build one `TodoItemStorage` from an input item, merging with the
existing stored item of the same id (`set_todos`, per-item body).  The
Python id dict is last-occurrence-wins, hence the reversed search. -/
def mkStorageItem (existing : List TodoItemStorage) (now : ℚ)
    (todo : TodoItem) : TodoItemStorage :=
  match existing.reverse.find? (fun e => e.id = todo.id) with
  | some e =>
    { id := todo.id, content := todo.content, status := todo.status
      priority := todo.priority, create_at := e.create_at, update_at := now
      previous_status := e.status }
  | none =>
    { id := todo.id, content := todo.content, status := todo.status
      priority := todo.priority, create_at := now, update_at := now
      previous_status := "pending" }

/-- `set_todos` as a pure function of the configuration, the previously
stored list, the clock and the input list. -/
def set_todos (maxTodos : ℕ) (autoArchiveCompleted : Bool)
    (existing : List TodoItemStorage) (now : ℚ) (todos : List TodoItem) :
    Except String (List TodoItemStorage) :=
  if maxTodos < todos.length then
    .error ("待办列表数量超过限制: " ++ toString todos.length ++ " > " ++ toString maxTodos)
  else
    let kept := if autoArchiveCompleted then
        todos.filter (fun t => t.status ≠ "completed")
      else todos
    let storageItems := kept.map (mkStorageItem existing now)
    .ok (storageItems.insertionSort sortKeyLe)

/-- The stored todo lists, one per agent id (`get_todos` of a missing
file is `[]`). -/
abbrev TodoStore := String → List TodoItemStorage

/-- `delete_todo_file_if_need`: drop the stored file when every stored
item is completed. -/
def deleteTodoFileIfNeed (store : TodoStore) (agentId : String) : TodoStore :=
  if ((store agentId).filter (fun t => t.status ≠ "completed")).length = 0 then
    fun a => if a = agentId then [] else store a
  else store

/-- `TodoWriteTool._run`: verify the input, store via `set_todos`, then
clean up; an error leaves the store untouched. -/
def todo_write_run (store : TodoStore) (agentId : String)
    (todos : List TodoItem) (maxTodos : ℕ) (autoArchiveCompleted : Bool)
    (now : ℚ) : Except String TodoStore :=
  match verify_input todos with
  | .error e => .error e
  | .ok _ =>
    match set_todos maxTodos autoArchiveCompleted (store agentId) now todos with
    | .error e => .error e
    | .ok items =>
      let store' : TodoStore := fun a => if a = agentId then items else store a
      .ok (deleteTodoFileIfNeed store' agentId)

/-! ### Sub-agent (Task) tool (`tools/task/task_tool.py`) -/

/-- A registered tool, by the name the registry exposes. -/
structure RegisteredTool where
  name : String
deriving DecidableEq, Repr

/-- A sub-agent descriptor's `tools` field: either a plain string
(possibly `"*"`) or an explicit list of tool names. -/
inductive AgentToolsConfig
  | ofString (s : String)
  | ofList (names : List String)
deriving DecidableEq, Repr

/-- `get_tools_by_names` (`utils/tool.py`): the registry filtered to the
given names. -/
def getToolsByNames (registry : List RegisteredTool) (names : List String) :
    List RegisteredTool :=
  registry.filter (fun t => t.name ∈ names)

/-- The sub-agent tool list built in `TaskTool._arun`: the descriptor
allowlist applied to the registry, then the Task tool removed.  The
`registry` argument stands for the full tool list
(`get_available_tools()`). -/
def buildSubAgentTools (registry : List RegisteredTool)
    (toolsConfig : AgentToolsConfig) : List RegisteredTool :=
  let selected :=
    match toolsConfig with
    | .ofString s =>
      if s ≠ "*" ∧ ¬ strContainsChar s '*' then getToolsByNames registry [s]
      else registry
    | .ofList names =>
      if "*" ∉ names then getToolsByNames registry names
      else registry
  selected.filter (fun t => t.name ≠ "TaskTool")

/-! ### Agent graph wiring and routing (`core/re_act_agent.py`) -/

/-- Name of task slot `i` (`f"task_node_{i}"`). -/
def taskNodeName (i : ℕ) : String := "task_node_" ++ toString i

/-- Nodes added in `_build_graph`. -/
def graphNodes (isMainAgent : Bool) : List String :=
  ["reason", "check_permissions", "execute_tools"] ++
    (if isMainAgent then (List.range 20).map taskNodeName else [])

/-- Unconditional edges added in `_build_graph`: `execute_tools → reason`,
and — only for slots 0..9 (`for i in range(10)`) — `task_node_i → reason`. -/
def graphEdges (isMainAgent : Bool) : List (String × String) :=
  [("execute_tools", "reason")] ++
    (if isMainAgent then (List.range 10).map (fun i => (taskNodeName i, "reason")) else [])

/-- Targets of the conditional edge out of `check_permissions`. -/
def checkPermissionsTargets : List (String × String) :=
  [("execute", "execute_tools")] ++
    (List.range 20).map (fun i => (taskNodeName i, taskNodeName i)) ++
    [("skip", "reason"), ("interrupt", "END")]

/-- A tool call as the routing code sees it. -/
structure ToolCallEntry where
  id : String
  name : String
deriving DecidableEq, Repr

/-- `_should_execute_tools`: `inl` is the single-label result
(`"interrupt"` / `"skip"`), `inr` the list of activated nodes. -/
def should_execute_tools (userCanceled : Bool) (toolCalls : List ToolCallEntry) :
    Sum String (List String) :=
  if userCanceled then .inl "interrupt"
  else if toolCalls ≠ [] then
    let taskTools := toolCalls.filter (fun tc => tc.name = "TaskTool")
    let result := (List.range taskTools.length).map taskNodeName
    let noneTaskTools := toolCalls.filter (fun tc => tc.name ≠ "TaskTool")
    .inr (if noneTaskTools ≠ [] then result ++ ["execute"] else result)
  else .inl "skip"

/-- The Task call slot `index` picks in `_define_task_tool`'s node body:
the `index`-th element of the `TaskTool` calls of the turn. -/
def taskNodeSelectedCall (toolCalls : List ToolCallEntry) (index : ℕ) :
    Option ToolCallEntry :=
  let taskToolCalls := toolCalls.filter (fun tc => tc.name = "TaskTool")
  if taskToolCalls ≠ [] ∧ index ≤ taskToolCalls.length then
    taskToolCalls.get? index
  else none

/-! ### Message log and the cancel-interrupt synthesizer
(`_process_interrupt_when_tool_execute`) -/

/-- A log message as the interrupt synthesizer distinguishes them:
`AIMessage` (with its tool-call ids), `ToolMessage` (with `tool_call_id`
and content), or anything else. -/
inductive LogMessage
  | assistantMsg (toolCallIds : List String)
  | toolMsg (toolCallId : String) (content : String)
  | otherMsg
deriving DecidableEq, Repr

/-- Backward scan for one id (`for i in range(len(messages)-1, -1, -1)`):
a matching `ToolMessage` means processed, an `AIMessage` stops the scan. -/
def processedScanRev (callId : String) : List LogMessage → Bool
  | [] => false
  | .toolMsg cid _ :: rest => if cid = callId then true else processedScanRev callId rest
  | .assistantMsg _ :: _ => false
  | .otherMsg :: rest => processedScanRev callId rest

/-- Whether `callId` already has an answering `ToolMessage` after the most
recent `AIMessage` in the log. -/
def processedInLog (messages : List LogMessage) (callId : String) : Bool :=
  processedScanRev callId messages.reverse

/-- The `ToolMessage`s `_process_interrupt_when_tool_execute` collects for
the not-yet-answered ids, in tool-call order. -/
def synthesizedCancelMessages (toolCallIds : List String)
    (messages : List LogMessage) : List LogMessage :=
  (toolCallIds.filter (fun cid => ¬ processedInLog messages cid)).map
    (fun cid => LogMessage.toolMsg cid "用户中断执行")

/-- `_process_interrupt_when_tool_execute` (the message-log effect when the
cancel flag is set): extend the log with the synthesized messages. -/
def processInterruptWhenToolExecute (toolCallIds : List String)
    (messages : List LogMessage) : List LogMessage :=
  messages ++ synthesizedCancelMessages toolCallIds messages

/-- Whether a log message is an `AIMessage`. -/
def LogMessage.isAssistantMsg : LogMessage → Bool
  | .assistantMsg _ => true
  | _ => false

/-- Whether a log message is a `ToolMessage` answering `callId`. -/
def LogMessage.isToolFor (callId : String) : LogMessage → Bool
  | .toolMsg cid _ => cid = callId
  | _ => false

/-- Number of `ToolMessage`s answering `callId` in a log segment. -/
def toolCount (callId : String) (messages : List LogMessage) : ℕ :=
  messages.countP (LogMessage.isToolFor callId)

end AiDev

namespace AiDev

/-! ## Theorems -/

/-- C2: `check_permission` evaluates in the fixed order: session-cache hit
yields ALLOW; otherwise a matching deny rule yields DENY; otherwise a
matching allow rule yields ALLOW; otherwise ASK.  Consequently a
session-cached key yields ALLOW even when a deny rule matches the same
invocation. -/
theorem check_permission_evaluation_order (cache : SessionCache)
    (config : PermissionConfig) (toolName : String) (toolArgs : ToolArgs)
    (wd : String) :
    ((mkRequest toolName toolArgs wd).permissionKey ∈ cache →
      (checkPermission cache config toolName toolArgs wd).1 = .allow) ∧
    ((mkRequest toolName toolArgs wd).permissionKey ∉ cache →
      matchesAnyPattern (mkRequest toolName toolArgs wd) config.denyRules = true →
      (checkPermission cache config toolName toolArgs wd).1 = .deny) ∧
    ((mkRequest toolName toolArgs wd).permissionKey ∉ cache →
      matchesAnyPattern (mkRequest toolName toolArgs wd) config.denyRules = false →
      matchesAnyPattern (mkRequest toolName toolArgs wd) config.allowRules = true →
      (checkPermission cache config toolName toolArgs wd).1 = .allow) ∧
    ((mkRequest toolName toolArgs wd).permissionKey ∉ cache →
      matchesAnyPattern (mkRequest toolName toolArgs wd) config.denyRules = false →
      matchesAnyPattern (mkRequest toolName toolArgs wd) config.allowRules = false →
      (checkPermission cache config toolName toolArgs wd).1 = .ask) ∧
    ((mkRequest toolName toolArgs wd).permissionKey ∈ cache →
      matchesAnyPattern (mkRequest toolName toolArgs wd) config.denyRules = true →
      (checkPermission cache config toolName toolArgs wd).1 = .allow) := by
  refine ⟨?_, ?_, ?_, ?_, ?_⟩
  · intro h1; simp [checkPermission, h1]
  · intro h1 h2; simp [checkPermission, h1, h2]
  · intro h1 h2 h3; simp [checkPermission, h1, h2, h3]
  · intro h1 h2 h3; simp [checkPermission, h1, h2, h3]
  · intro h1 _; simp [checkPermission, h1]

/-- Witness for C2 at a concrete invocation: the key is cached and a deny
rule matches the tool, yet the decision is ALLOW. -/
theorem check_permission_evaluation_order_witness :
    (checkPermission ["BashExecuteTool(rm:*)"] ⟨[], ["BashExecuteTool"], []⟩
      "BashExecuteTool" [("command", "rm -rf /tmp/x")] "/w").1 = PermissionDecision.allow :=
  (check_permission_evaluation_order ["BashExecuteTool(rm:*)"]
    ⟨[], ["BashExecuteTool"], []⟩ "BashExecuteTool"
    [("command", "rm -rf /tmp/x")] "/w").2.2.2.2 (by decide) (by decide)

/-- Behaviour of the rule `"*"`: it is parsed as a tool name, so it
matches exactly the tool whose name is the literal string `*`. -/
theorem matchesPattern_star (r : PermissionRequest) :
    matchesPattern r "*" = decide (r.tool_name = "*") := by
  have h : ¬ (strContainsChar "*" '(' = true ∧ strEndsWith "*" ")" = true) := by decide
  by_cases htn : r.tool_name = "*"
  · simp [matchesPattern, h, htn]
  · have htn' : "*" ≠ r.tool_name := fun hx => htn hx.symm
    simp [matchesPattern, h, htn, htn']

/-- C3 counterexample: with the deny list `["*"]` and an empty session
cache, a `BashExecuteTool` invocation is ASK, not DENY. -/
theorem deny_star_counterexample :
    (checkPermission [] ⟨[], ["*"], []⟩ "BashExecuteTool" [] "/w").1 ≠
      PermissionDecision.deny ∧
    (checkPermission [] ⟨[], ["*"], []⟩ "BashExecuteTool" [] "/w").1 =
      PermissionDecision.ask := by decide

/-- C3 amended: with deny list `["*"]`, a non-cached invocation is denied
exactly when the tool name is the literal string `*`; for every other tool
the deny rule never matches and the decision is never DENY. -/
theorem deny_star_amended (cache : SessionCache)
    (allowRules askRules : List String) (toolName : String)
    (toolArgs : ToolArgs) (wd : String)
    (hcache : (mkRequest toolName toolArgs wd).permissionKey ∉ cache) :
    (toolName ≠ "*" →
      (checkPermission cache ⟨allowRules, ["*"], askRules⟩ toolName toolArgs wd).1 ≠
        PermissionDecision.deny) ∧
    (toolName = "*" →
      (checkPermission cache ⟨allowRules, ["*"], askRules⟩ toolName toolArgs wd).1 =
        PermissionDecision.deny) := by
  have hm : matchesAnyPattern (mkRequest toolName toolArgs wd) ["*"] =
      decide (toolName = "*") := by
    simp [matchesAnyPattern, matchesPattern_star, mkRequest]
  constructor
  · intro hne
    have hm' : matchesAnyPattern (mkRequest toolName toolArgs wd) ["*"] = false := by
      rw [hm]; simpa using hne
    cases hall : matchesAnyPattern (mkRequest toolName toolArgs wd) allowRules
    · simp [checkPermission, hcache, hm', hall]
    · simp [checkPermission, hcache, hm', hall]
  · intro heq
    have hm' : matchesAnyPattern (mkRequest toolName toolArgs wd) ["*"] = true := by
      rw [hm]; simpa using heq
    simp [checkPermission, hcache, hm']

/-- Witness for C3's amended statement at concrete invocations: deny
`["*"]` does not deny `FileReadTool`, and does deny a tool literally named
`*`. -/
theorem deny_star_amended_witness :
    ((checkPermission [] ⟨[], ["*"], []⟩ "FileReadTool" [] "/w").1 ≠
      PermissionDecision.deny) ∧
    ((checkPermission [] ⟨[], ["*"], []⟩ "*" [] "/w").1 =
      PermissionDecision.deny) :=
  ⟨(deny_star_amended [] [] [] "FileReadTool" [] "/w" (by decide)).1 (by decide),
   (deny_star_amended [] [] [] "*" [] "/w" (by decide)).2 rfl⟩

/-- C4: `apply_user_choice` writes the session cache only on
ALLOW_SESSION — ALLOW_ONCE and DENY leave the cache unchanged — and after
an ALLOW_SESSION grant every invocation producing the same permission key
is ALLOW. -/
theorem apply_user_choice_session_cache (cache : SessionCache)
    (config : PermissionConfig) (request : PermissionRequest)
    (toolName : String) (toolArgs : ToolArgs) (wd : String)
    (hkey : (mkRequest toolName toolArgs wd).permissionKey = request.permissionKey) :
    (applyUserChoice cache request .allowOnce = (true, cache)) ∧
    (applyUserChoice cache request .denyOp = (false, cache)) ∧
    ((applyUserChoice cache request .allowSession).1 = true) ∧
    (∀ k, k ∈ (applyUserChoice cache request .allowSession).2 ↔
      k = request.permissionKey ∨ k ∈ cache) ∧
    ((checkPermission (applyUserChoice cache request .allowSession).2 config
        toolName toolArgs wd).1 = PermissionDecision.allow) := by
  have hmem : request.permissionKey ∈ (applyUserChoice cache request .allowSession).2 := by
    by_cases h : request.permissionKey ∈ cache <;> simp [applyUserChoice, h]
  refine ⟨rfl, rfl, ?_, ?_, ?_⟩
  · by_cases h : request.permissionKey ∈ cache <;> simp [applyUserChoice, h]
  · intro k
    by_cases h : request.permissionKey ∈ cache
    · simp only [applyUserChoice, if_pos h]
      constructor
      · intro hk; exact Or.inr hk
      · rintro (rfl | hk)
        · exact h
        · exact hk
    · simp [applyUserChoice, if_neg h]
  · have : (mkRequest toolName toolArgs wd).permissionKey ∈
        (applyUserChoice cache request .allowSession).2 := by rw [hkey]; exact hmem
    simp [checkPermission, this]

/-- Witness for C4 at a concrete request: after an ALLOW_SESSION grant the
same invocation is ALLOW. -/
theorem apply_user_choice_session_cache_witness :
    (checkPermission
      (applyUserChoice [] (mkRequest "FileWriteTool" [("file_path", "/w/a.py")] "/w")
        .allowSession).2
      ⟨[], [], []⟩ "FileWriteTool" [("file_path", "/w/a.py")] "/w").1 =
      PermissionDecision.allow :=
  (apply_user_choice_session_cache [] ⟨[], [], []⟩
    (mkRequest "FileWriteTool" [("file_path", "/w/a.py")] "/w")
    "FileWriteTool" [("file_path", "/w/a.py")] "/w" rfl).2.2.2.2

/-- C6: for every registry content and every descriptor tool
configuration — the `"*"` wildcard, an explicit list, even one naming the
Task tool — the constructed child agent's tool list never contains the
Task tool. -/
theorem task_tool_never_in_child_tools (registry : List RegisteredTool)
    (toolsConfig : AgentToolsConfig) :
    ((buildSubAgentTools registry toolsConfig).map RegisteredTool.name).count "TaskTool" = 0 := by
  rw [List.count_eq_zero]
  intro hmem
  rw [List.mem_map] at hmem
  obtain ⟨t, ht, hname⟩ := hmem
  unfold buildSubAgentTools at ht
  rw [List.mem_filter] at ht
  have h2 := ht.2
  simp [hname] at h2

/-- C8: compaction triggers exactly at the 92% threshold — a token count
equal to `0.92 * budget` triggers it, any count strictly below does not. -/
theorem compact_trigger_iff_92_percent (messages : List ChatMessage)
    (maxContextTokens : ℕ) :
    ((count_tokens messages : ℚ) = (maxContextTokens : ℚ) * AUTO_COMPACT_THRESHOLD →
      should_compact messages maxContextTokens = true) ∧
    ((count_tokens messages : ℚ) < (maxContextTokens : ℚ) * AUTO_COMPACT_THRESHOLD →
      should_compact messages maxContextTokens = false) := by
  constructor
  · intro h
    simp only [should_compact, ge_iff_le, decide_eq_true_eq]
    exact le_of_eq h.symm
  · intro h
    simp only [should_compact, ge_iff_le, decide_eq_false_iff_not, not_le]
    exact h

/-- Witness for C8 with a 128000-token budget: a count of 117760 (exactly
92%) triggers compaction; a count of 117632 (91.9%) does not. -/
theorem compact_trigger_iff_92_percent_witness :
    should_compact [ChatMessage.ai (some 117760)] 128000 = true ∧
    should_compact [ChatMessage.ai (some 117632)] 128000 = false :=
  ⟨(compact_trigger_iff_92_percent [ChatMessage.ai (some 117760)] 128000).1 (by
      norm_num [count_tokens, countTokensRev, AUTO_COMPACT_THRESHOLD]),
   (compact_trigger_iff_92_percent [ChatMessage.ai (some 117632)] 128000).2 (by
      norm_num [count_tokens, countTokensRev, AUTO_COMPACT_THRESHOLD])⟩

end AiDev

namespace AiDev

/-- C7: reading a path and then checking it against an unchanged mtime is
fresh (`needs_read = false`), provided the file's mtime does not lie in
the future of the read clock; and `update_read` unconditionally clears
`last_agent_edit_time`. -/
theorem freshness_read_then_check (s : FreshnessState) (p : String)
    (now m : ℚ) (mt : Option ℚ) (hclock : m ≤ now) :
    ((checkFreshness (updateReadTime s p now (some m)) p (some m)).1 = false) ∧
    (((updateReadTime s p now mt) p).map FileFreshnessRecord.last_agent_edit_time =
      some none) := by
  constructor
  · have hlt : ¬ now < m := not_lt.mpr hclock
    simp [checkFreshness, updateReadTime, hlt]
  · cases mt <;> simp [updateReadTime]

/-- Witness for C7 at a concrete path and clock. -/
theorem freshness_read_then_check_witness :
    ((checkFreshness (updateReadTime (fun _ => none) "a.py" 10 (some 5)) "a.py"
        (some 5)).1 = false) ∧
    (((updateReadTime (fun _ => none) "a.py" 10 none) "a.py").map
        FileFreshnessRecord.last_agent_edit_time = some none) :=
  freshness_read_then_check (fun _ => none) "a.py" 10 5 none (by norm_num)

/-- C10: on a tracked path with an accessible file, `check_freshness`
mutates the record — it overwrites `last_external_edit_time` with the
current mtime while leaving `last_read_time`, `last_agent_edit_time` and
`read_count` unchanged.  The hypothesis that one of the two timestamps is
set holds for every record the tracker API can create. -/
theorem check_freshness_mutates_record (s : FreshnessState) (p : String)
    (m : ℚ) (r : FileFreshnessRecord) (hrec : s p = some r)
    (hreach : r.last_agent_edit_time ≠ none ∨ r.last_read_time ≠ none) :
    ∃ r', (checkFreshness s p (some m)).2.2 p = some r' ∧
      r'.last_external_edit_time = some m ∧
      r'.last_read_time = r.last_read_time ∧
      r'.last_agent_edit_time = r.last_agent_edit_time ∧
      r'.read_count = r.read_count := by
  refine ⟨{ r with last_external_edit_time := some m }, ?_, rfl, rfl, rfl, rfl⟩
  simp only [checkFreshness, hrec]
  rcases h1 : r.last_agent_edit_time with _ | tEdit
  · rcases h2 : r.last_read_time with _ | tRead
    · rcases hreach with hr | hr
      · exact absurd h1 hr
      · exact absurd h2 hr
    · by_cases hlt : tRead < m <;> simp [hlt, h1, h2]
  · by_cases hlt : tEdit < m <;> simp [hlt, h1]

/-- Witness for C10 at a concrete record previously created by a read. -/
theorem check_freshness_mutates_record_witness :
    ∃ r', (checkFreshness
        (fun q => if q = "a.py" then some ⟨"a.py", some 1, none, none, 1⟩ else none)
        "a.py" (some 3)).2.2 "a.py" = some r' ∧
      r'.last_external_edit_time = some 3 ∧
      r'.last_read_time = some 1 ∧
      r'.last_agent_edit_time = none ∧
      r'.read_count = 1 :=
  check_freshness_mutates_record
    (fun q => if q = "a.py" then some ⟨"a.py", some 1, none, none, 1⟩ else none)
    "a.py" 3 ⟨"a.py", some 1, none, none, 1⟩ (by simp) (Or.inr (by simp))

/-- C5: the claim fails on the code.  At a turn with 11 Task calls the
router activates `task_node_10` (and slot 10 would run the 11th Task
call), but `_build_graph`'s return-edge loop `for i in range(10)` only
wires slots 0..9 back to `reason`: `task_node_10` is a graph node with no
`task_node_10 → reason` edge. -/
theorem task_slot_return_edge_gap :
    (should_execute_tools false ((List.range 11).map (fun i => ⟨toString i, "TaskTool"⟩)) =
      Sum.inr ((List.range 11).map taskNodeName)) ∧
    (taskNodeName 10 ∈ graphNodes true) ∧
    ((taskNodeName 10, taskNodeName 10) ∈ checkPermissionsTargets) ∧
    ((taskNodeName 10, "reason") ∉ graphEdges true) ∧
    (∀ i < 10, (taskNodeName i, "reason") ∈ graphEdges true) ∧
    (taskNodeSelectedCall ((List.range 11).map (fun i => ⟨toString i, "TaskTool"⟩)) 10 =
      some ⟨"10", "TaskTool"⟩) := by decide

end AiDev

namespace AiDev

/-- A deduplicated list has full length exactly when the list has no
duplicates. -/
theorem dedup_length_eq_iff {α : Type} [DecidableEq α] (l : List α) :
    l.dedup.length = l.length ↔ l.Nodup := by
  constructor
  · intro h
    have heq : l.dedup = l := (List.dedup_sublist l).eq_of_length h
    rw [← heq]
    exact List.nodup_dedup l
  · intro h
    rw [List.dedup_eq_self.mpr h]

/-- `mkStorageItem` keeps the input item's id. -/
theorem mkStorageItem_id (existing : List TodoItemStorage) (now : ℚ)
    (todo : TodoItem) : (mkStorageItem existing now todo).id = todo.id := by
  unfold mkStorageItem
  cases existing.reverse.find? (fun e => e.id = todo.id) <;> rfl

/-- `mkStorageItem` keeps the input item's status. -/
theorem mkStorageItem_status (existing : List TodoItemStorage) (now : ℚ)
    (todo : TodoItem) : (mkStorageItem existing now todo).status = todo.status := by
  unfold mkStorageItem
  cases existing.reverse.find? (fun e => e.id = todo.id) <;> rfl

/-- C9: `TodoWriteTool` rejects an input list with duplicate ids or more
than one `in_progress` item before storing anything, so after every
successful write the agent's stored list has unique ids and at most one
`in_progress` item, and no other agent's list changes. -/
theorem todo_write_preserves_invariant (store : TodoStore) (agentId : String)
    (todos : List TodoItem) (maxTodos : ℕ) (arch : Bool) (now : ℚ) :
    ((¬ (todos.map TodoItem.id).Nodup ∨
        1 < (todos.filter (fun t => t.status = "in_progress")).length) →
      ∃ e, todo_write_run store agentId todos maxTodos arch now = .error e) ∧
    (∀ store', todo_write_run store agentId todos maxTodos arch now = .ok store' →
      ((store' agentId).map TodoItemStorage.id).Nodup ∧
      ((store' agentId).filter (fun t => t.status = "in_progress")).length ≤ 1 ∧
      ∀ a, a ≠ agentId → store' a = store a) := by
  have hlenmap : (todos.map TodoItem.id).length = todos.length :=
    List.length_map todos TodoItem.id
  have hiff : ((todos.map TodoItem.id).dedup.length = todos.length) ↔
      (todos.map TodoItem.id).Nodup := by
    rw [← hlenmap]
    exact dedup_length_eq_iff _
  constructor
  · intro h
    by_cases hlen : (todos.map TodoItem.id).dedup.length = todos.length
    · have hnodup := hiff.mp hlen
      have hcnt : 1 < (todos.filter (fun t => t.status = "in_progress")).length := by
        rcases h with hdup | hcnt
        · exact absurd hnodup hdup
        · exact hcnt
      refine ⟨"Only one task can be in_progress at a time", ?_⟩
      unfold todo_write_run verify_input
      rw [if_neg (fun hne => hne hlen), if_pos hcnt]
    · refine ⟨"Duplicate todo IDs found", ?_⟩
      unfold todo_write_run verify_input
      rw [if_pos hlen]
  · intro store' hrun
    unfold todo_write_run at hrun
    rcases hv : verify_input todos with e | u
    · rw [hv] at hrun
      cases hrun
    · rw [hv] at hrun
      rcases hs : set_todos maxTodos arch (store agentId) now todos with e | items
      · rw [hs] at hrun
        cases hrun
      · rw [hs] at hrun
        have hstore' : store' =
            deleteTodoFileIfNeed (fun a => if a = agentId then items else store a) agentId := by
          cases hrun
          rfl
        -- facts from a successful verification
        have hnodup : (todos.map TodoItem.id).Nodup := by
          by_contra hdup
          have hlen : (todos.map TodoItem.id).dedup.length ≠ todos.length :=
            fun he => hdup (hiff.mp he)
          unfold verify_input at hv
          rw [if_pos hlen] at hv
          cases hv
        have hcount : (todos.filter (fun t => t.status = "in_progress")).length ≤ 1 := by
          by_contra hgt
          rw [not_le] at hgt
          have hlen : (todos.map TodoItem.id).dedup.length = todos.length :=
            hiff.mpr hnodup
          unfold verify_input at hv
          rw [if_neg (fun hne => hne hlen), if_pos hgt] at hv
          cases hv
        -- the stored list
        have hitems : items =
            ((if arch then todos.filter (fun t => t.status ≠ "completed") else todos).map
              (mkStorageItem (store agentId) now)).insertionSort sortKeyLe := by
          unfold set_todos at hs
          by_cases hmax : maxTodos < todos.length
          · rw [if_pos hmax] at hs
            cases hs
          · rw [if_neg hmax] at hs
            cases hs
            rfl
        set kept := if arch then todos.filter (fun t => t.status ≠ "completed") else todos with hkept
        have hsubl : List.Sublist kept todos := by
          rw [hkept]
          by_cases ha : arch
          · rw [if_pos ha]
            exact List.filter_sublist todos
          · rw [if_neg ha]
        have hperm : List.Perm items (kept.map (mkStorageItem (store agentId) now)) := by
          rw [hitems]
          exact List.perm_insertionSort _ _
        have hcompid : TodoItemStorage.id ∘ mkStorageItem (store agentId) now =
            TodoItem.id := by
          funext x
          exact mkStorageItem_id _ _ _
        have hidsnodup : (items.map TodoItemStorage.id).Nodup := by
          rw [(hperm.map TodoItemStorage.id).nodup_iff]
          rw [List.map_map, hcompid]
          exact List.Nodup.sublist (hsubl.map TodoItem.id) hnodup
        have hitemscount :
            (items.filter (fun t => t.status = "in_progress")).length ≤ 1 := by
          rw [← List.countP_eq_length_filter]
          rw [hperm.countP_eq]
          rw [List.countP_map]
          have hcomp : ((fun t : TodoItemStorage => decide (t.status = "in_progress")) ∘
              mkStorageItem (store agentId) now) =
              (fun t : TodoItem => decide (t.status = "in_progress")) := by
            funext x
            simp [Function.comp, mkStorageItem_status]
          rw [hcomp]
          calc kept.countP (fun t => decide (t.status = "in_progress"))
              ≤ todos.countP (fun t => decide (t.status = "in_progress")) :=
                hsubl.countP_le _
            _ = (todos.filter (fun t => t.status = "in_progress")).length :=
                List.countP_eq_length_filter _ _
            _ ≤ 1 := hcount
        -- the stored value after the cleanup step
        have hsa : store' agentId = items ∨ store' agentId = [] := by
          rw [hstore']
          unfold deleteTodoFileIfNeed
          by_cases hc :
              (((fun a => if a = agentId then items else store a) agentId).filter
                (fun t => t.status ≠ "completed")).length = 0
          · right
            rw [if_pos hc]
            simp
          · left
            rw [if_neg hc]
            simp
        refine ⟨?_, ?_, ?_⟩
        · rcases hsa with hval | hval <;> rw [hval]
          · exact hidsnodup
          · simp
        · rcases hsa with hval | hval <;> rw [hval]
          · exact hitemscount
          · simp
        · intro a ha
          rw [hstore']
          unfold deleteTodoFileIfNeed
          by_cases hc :
              (((fun a => if a = agentId then items else store a) agentId).filter
                (fun t => t.status ≠ "completed")).length = 0
          · rw [if_pos hc]
            simp [ha]
          · rw [if_neg hc]
            simp [ha]

/-- Witness for C9: a duplicate-id input is rejected with an error. -/
theorem todo_write_preserves_invariant_witness :
    ∃ e, todo_write_run (fun _ => []) "main"
      [⟨"1", "a", "pending", "low"⟩, ⟨"1", "b", "pending", "low"⟩]
      100 false 0 = .error e :=
  (todo_write_preserves_invariant (fun _ => []) "main"
    [⟨"1", "a", "pending", "low"⟩, ⟨"1", "b", "pending", "low"⟩]
    100 false 0).1 (Or.inl (by decide))

end AiDev

namespace AiDev

/-- The backward scan over a segment free of `AIMessage`s followed by an
`AIMessage` finds exactly the tool answers in the segment. -/
theorem processedScanRev_no_assistant (callId : String) (l : List LogMessage)
    (ids : List String) (rest : List LogMessage)
    (h : ∀ m ∈ l, m.isAssistantMsg = false) :
    processedScanRev callId (l ++ LogMessage.assistantMsg ids :: rest) =
      l.any (LogMessage.isToolFor callId) := by
  induction l with
  | nil => rfl
  | cons m t ih =>
    cases m with
    | assistantMsg ids2 =>
      have := h (LogMessage.assistantMsg ids2) (by simp)
      simp [LogMessage.isAssistantMsg] at this
    | toolMsg cid c =>
      by_cases hc : cid = callId
      · simp [processedScanRev, hc, LogMessage.isToolFor]
      · have ih' := ih (fun m hm => h m (by simp [hm]))
        simp [processedScanRev, hc, LogMessage.isToolFor, ih']
    | otherMsg =>
      have ih' := ih (fun m hm => h m (by simp [hm]))
      simp [processedScanRev, LogMessage.isToolFor, ih']

/-- In a log whose tail after the last `AIMessage` is `suffix`, an id
counts as processed exactly when `suffix` answers it. -/
theorem processedInLog_split (callId : String) (ids : List String)
    (pre suffix : List LogMessage)
    (hsuffix : ∀ m ∈ suffix, m.isAssistantMsg = false) :
    processedInLog (pre ++ LogMessage.assistantMsg ids :: suffix) callId =
      suffix.any (LogMessage.isToolFor callId) := by
  unfold processedInLog
  rw [List.reverse_append, List.reverse_cons, List.append_assoc,
    List.singleton_append]
  rw [processedScanRev_no_assistant callId suffix.reverse ids pre.reverse
    (fun m hm => hsuffix m (List.mem_reverse.mp hm))]
  exact List.any_reverse

/-- A list without duplicates counts any of its members exactly once. -/
theorem countP_eq_one_of_nodup : ∀ (l : List String), l.Nodup → ∀ cid, cid ∈ l →
    l.countP (fun c => decide (c = cid)) = 1
  | [], _, cid, hmem => by simp at hmem
  | a :: t, h, cid, hmem => by
    rw [List.countP_cons]
    rcases List.mem_cons.mp hmem with rfl | hmem'
    · have hnotin : cid ∉ t := (List.nodup_cons.mp h).1
      have hz : t.countP (fun c => decide (c = cid)) = 0 := by
        rw [List.countP_eq_zero]
        intro c hc
        simp only [decide_eq_true_eq]
        rintro rfl
        exact hnotin hc
      simp [hz]
    · have ha : ¬ (a = cid) := by
        rintro rfl
        exact (List.nodup_cons.mp h).1 hmem'
      rw [countP_eq_one_of_nodup t (List.nodup_cons.mp h).2 cid hmem']
      simp [ha]

/-- C1: when the cancel flag is set, for an `AIMessage` carrying the
distinct tool-call ids `ids` whose following log segment `suffix` contains
no further `AIMessage` and answers each id at most once, the interrupt
synthesizer leaves every id with exactly one answering `Tool` message, and
every synthesized message is a `Tool` message with content 用户中断执行
for one of the ids. -/
theorem cancel_preserves_tool_log_invariant (ids : List String)
    (pre suffix : List LogMessage)
    (hnd : ids.Nodup)
    (hsuffix : ∀ m ∈ suffix, m.isAssistantMsg = false)
    (hatmost : ∀ cid ∈ ids, toolCount cid suffix ≤ 1) :
    (∀ cid ∈ ids,
      toolCount cid (suffix ++
        synthesizedCancelMessages ids (pre ++ LogMessage.assistantMsg ids :: suffix)) = 1) ∧
    (∀ m ∈ synthesizedCancelMessages ids (pre ++ LogMessage.assistantMsg ids :: suffix),
      ∃ cid, cid ∈ ids ∧ m = LogMessage.toolMsg cid "用户中断执行") := by
  have hproc : ∀ cid,
      processedInLog (pre ++ LogMessage.assistantMsg ids :: suffix) cid =
        suffix.any (LogMessage.isToolFor cid) :=
    fun cid => processedInLog_split cid ids pre suffix hsuffix
  constructor
  · intro cid hcid
    unfold toolCount
    rw [List.countP_append]
    have hsynth :
        (synthesizedCancelMessages ids
            (pre ++ LogMessage.assistantMsg ids :: suffix)).countP
          (LogMessage.isToolFor cid) =
        (ids.filter (fun c =>
            ¬ processedInLog (pre ++ LogMessage.assistantMsg ids :: suffix) c)).countP
          (fun c => decide (c = cid)) := by
      unfold synthesizedCancelMessages
      rw [List.countP_map]
      congr 1
    rw [hsynth]
    by_cases hp : suffix.any (LogMessage.isToolFor cid) = true
    · have hpos : 0 < suffix.countP (LogMessage.isToolFor cid) :=
        List.countP_pos_iff.mpr (List.any_eq_true.mp hp)
      have hle := hatmost cid hcid
      unfold toolCount at hle
      have hzero :
          (ids.filter (fun c =>
              ¬ processedInLog (pre ++ LogMessage.assistantMsg ids :: suffix) c)).countP
            (fun c => decide (c = cid)) = 0 := by
        rw [List.countP_eq_zero]
        intro c hc
        simp only [decide_eq_true_eq]
        rintro rfl
        have hnotproc := of_decide_eq_true (List.mem_filter.mp hc).2
        exact hnotproc (by rw [hproc]; exact hp)
      omega
    · have hfalse : suffix.any (LogMessage.isToolFor cid) = false := by
        cases h : suffix.any (LogMessage.isToolFor cid)
        · rfl
        · exact absurd h hp
      have h0 : suffix.countP (LogMessage.isToolFor cid) = 0 := by
        rw [List.countP_eq_zero]
        exact List.any_eq_false.mp hfalse
      have hmem : cid ∈ ids.filter (fun c =>
          ¬ processedInLog (pre ++ LogMessage.assistantMsg ids :: suffix) c) := by
        rw [List.mem_filter]
        refine ⟨hcid, decide_eq_true ?_⟩
        rw [hproc, hfalse]
        simp
      have hone :
          (ids.filter (fun c =>
              ¬ processedInLog (pre ++ LogMessage.assistantMsg ids :: suffix) c)).countP
            (fun c => decide (c = cid)) = 1 :=
        countP_eq_one_of_nodup _ (hnd.filter _) cid hmem
      omega
  · intro m hm
    unfold synthesizedCancelMessages at hm
    rw [List.mem_map] at hm
    obtain ⟨c, hc, rfl⟩ := hm
    exact ⟨c, List.mem_of_mem_filter hc, rfl⟩

/-- Witness for C1: an assistant turn with ids a, b where only a was
answered before the cancel; after synthesis b has exactly one answer. -/
theorem cancel_preserves_tool_log_invariant_witness :
    toolCount "b" ([LogMessage.toolMsg "a" "ok"] ++
      synthesizedCancelMessages ["a", "b"]
        ([] ++ LogMessage.assistantMsg ["a", "b"] :: [LogMessage.toolMsg "a" "ok"])) = 1 :=
  (cancel_preserves_tool_log_invariant ["a", "b"] [] [LogMessage.toolMsg "a" "ok"]
    (by decide) (by decide) (by decide)).1 "b" (by decide)

end AiDev
